import Mathlib

/-!
Shallow embedding of the agent-orchestration core of the
computer-control framework (files `src/core/types.py`, `src/core/base.py`,
`src/core/retry.py`, `src/async_agent.py`), together with proofs that settle
the frozen specification claims about it.

Modelling conventions:
* Python `float` values that the code manipulates exactly (coordinates,
  delays) are modelled as `ℚ`; Python `int` as `ℤ`/`ℕ`.
* Python truthiness is modelled explicitly (`None`/`""`/`[]` are falsy).
* A raised Python exception is modelled as `Except.error` carrying a `PyExc`
  value holding the exception's `str(...)` message.
* Wall-clock time is abstracted: the measured duration of an execution is an
  explicit parameter threaded into the produced result.
* `await`/thread-pool plumbing of the async agent carries no decision logic;
  the run loop is modelled as a function of the per-step brain outcomes, the
  per-check value of the cooperative cancellation flag, and the step budget.
-/

namespace CCF

/-- A raised Python exception, identified by its `str(...)` message
(the core raises only `ValueError`s and generic `Exception`s). -/
structure PyExc where
  msg : String
deriving DecidableEq, Repr

/-- Python truthiness of an optional string (`None` and `""` are falsy). -/
def strTruthy : Option String → Bool
  | some s => !(s == "")
  | none => false

/-- Python truthiness of an optional list (`None` and `[]` are falsy). -/
def listTruthy {α : Type} : Option (List α) → Bool
  | some l => !l.isEmpty
  | none => false

/-- Python `a or b` for an optional string `a` with default `b`
(`None` and `""` both fall through to `b`). -/
def pyStrOr (a : Option String) (b : String) : String :=
  match a with
  | some s => if s = "" then b else s
  | none => b

/-- Python `int(q)`: truncation toward zero of an exact rational value. -/
def ratTrunc (q : ℚ) : ℤ :=
  if 0 ≤ q then ⌊q⌋ else -⌊-q⌋

/-- `CoordinateType` enum of `core/types.py`. -/
inductive CoordinateType where
  | ABSOLUTE
  | PERCENTAGE
  | ELEMENT_LABEL
deriving DecidableEq, Repr

/-- `MouseButton` enum of `core/types.py`. -/
inductive MouseButton where
  | LEFT
  | RIGHT
  | MIDDLE
deriving DecidableEq, Repr

/-- `ActionType` enum of `core/types.py` (all fifteen members). -/
inductive ActionType where
  | MOUSE_MOVE
  | CLICK
  | DOUBLE_CLICK
  | RIGHT_CLICK
  | DRAG
  | SCROLL
  | TYPE_TEXT
  | KEY_PRESS
  | KEY_DOWN
  | KEY_UP
  | HOTKEY
  | SCREENSHOT
  | WAIT
  | FOCUS_WINDOW
  | GET_WINDOW_INFO
deriving DecidableEq, Repr

/-- The `.value` string of an `ActionType` member. -/
def ActionType.value : ActionType → String
  | .MOUSE_MOVE => "mouse_move"
  | .CLICK => "click"
  | .DOUBLE_CLICK => "double_click"
  | .RIGHT_CLICK => "right_click"
  | .DRAG => "drag"
  | .SCROLL => "scroll"
  | .TYPE_TEXT => "type_text"
  | .KEY_PRESS => "key_press"
  | .KEY_DOWN => "key_down"
  | .KEY_UP => "key_up"
  | .HOTKEY => "hotkey"
  | .SCREENSHOT => "screenshot"
  | .WAIT => "wait"
  | .FOCUS_WINDOW => "focus_window"
  | .GET_WINDOW_INFO => "get_window_info"

/-- Python `str(action_type)` of an enum member, used in the
unknown-action error message (`f"Unknown action type: {action.action_type}"`). -/
def ActionType.pyStr : ActionType → String
  | .MOUSE_MOVE => "ActionType.MOUSE_MOVE"
  | .CLICK => "ActionType.CLICK"
  | .DOUBLE_CLICK => "ActionType.DOUBLE_CLICK"
  | .RIGHT_CLICK => "ActionType.RIGHT_CLICK"
  | .DRAG => "ActionType.DRAG"
  | .SCROLL => "ActionType.SCROLL"
  | .TYPE_TEXT => "ActionType.TYPE_TEXT"
  | .KEY_PRESS => "ActionType.KEY_PRESS"
  | .KEY_DOWN => "ActionType.KEY_DOWN"
  | .KEY_UP => "ActionType.KEY_UP"
  | .HOTKEY => "ActionType.HOTKEY"
  | .SCREENSHOT => "ActionType.SCREENSHOT"
  | .WAIT => "ActionType.WAIT"
  | .FOCUS_WINDOW => "ActionType.FOCUS_WINDOW"
  | .GET_WINDOW_INFO => "ActionType.GET_WINDOW_INFO"

/-- `Point` dataclass of `core/types.py`: x, y are Python floats, modelled
as exact rationals. -/
structure Point where
  x : ℚ
  y : ℚ
  coordinate_type : CoordinateType := .ABSOLUTE
deriving DecidableEq, Repr

/-- `Size` dataclass of `core/types.py` (`width`, `height` are ints). -/
structure Size where
  width : ℤ
  height : ℤ
deriving DecidableEq, Repr

/-- `Rect` dataclass of `core/types.py`; the fields are declared `int`. -/
structure Rect where
  left : ℤ
  top : ℤ
  right : ℤ
  bottom : ℤ
deriving DecidableEq, Repr

/-- `Rect.center`: `Point((left+right)/2, (top+bottom)/2, ABSOLUTE)`,
with Python float division modelled as exact division in `ℚ`. -/
def Rect.center (r : Rect) : Point :=
  { x := ((r.left : ℚ) + r.right) / 2
    y := ((r.top : ℚ) + r.bottom) / 2
    coordinate_type := .ABSOLUTE }

/-- `Point.to_absolute` of `core/types.py`.  `int(...)` is truncation toward
zero; the `ELEMENT_LABEL` case raises `ValueError`. -/
def Point.to_absolute (p : Point) (screen_width screen_height : ℤ) :
    Except PyExc Point :=
  match p.coordinate_type with
  | .ABSOLUTE =>
      .ok { x := (ratTrunc p.x : ℤ), y := (ratTrunc p.y : ℤ),
            coordinate_type := .ABSOLUTE }
  | .PERCENTAGE =>
      .ok { x := (ratTrunc (p.x * screen_width) : ℤ),
            y := (ratTrunc (p.y * screen_height) : ℤ),
            coordinate_type := .ABSOLUTE }
  | .ELEMENT_LABEL =>
      .error ⟨"Cannot convert ELEMENT_LABEL to absolute without element info"⟩

/-- `Point.to_percentage` of `core/types.py` (Python float division is exact
division here; the screen size is positive in every claim considered). -/
def Point.to_percentage (p : Point) (screen_width screen_height : ℤ) :
    Except PyExc Point :=
  match p.coordinate_type with
  | .PERCENTAGE => .ok p
  | .ABSOLUTE =>
      .ok { x := p.x / (screen_width : ℚ), y := p.y / (screen_height : ℚ),
            coordinate_type := .PERCENTAGE }
  | .ELEMENT_LABEL =>
      .error ⟨"Cannot convert ELEMENT_LABEL to percentage without element info"⟩

/-- `ScreenElement` dataclass of `core/types.py` (confidence defaults to 1). -/
structure ScreenElement where
  label : String
  rect : Rect
  element_type : Option String := none
  text : Option String := none
  confidence : ℚ := 1
deriving DecidableEq, Repr

/-- `Action` dataclass of `core/types.py`.  The free-form `extra` map is
omitted: the core never inspects it. -/
structure Action where
  action_type : ActionType
  coordinate : Option Point := none
  element_label : Option String := none
  text : Option String := none
  keys : Option (List String) := none
  button : MouseButton := .LEFT
  scroll_amount : ℤ := 0
  scroll_direction : String := "down"
  duration : ℚ := 0
  end_coordinate : Option Point := none
  end_element_label : Option String := none
deriving DecidableEq, Repr

/-- `ActionResult` dataclass of `core/types.py`, restricted to the fields the
modelled core reads or writes (`screenshot_base64`, `elements`,
`label_to_rect` and `raw_data` keep their defaults everywhere in the
modelled code and are omitted). -/
structure ActionResult where
  success : Bool
  message : String := ""
  error : Option String := none
  screen_size : Option Size := none
  duration : ℚ := 0
deriving DecidableEq, Repr

/-- One primitive operation requested from the injected OS controller by the
action executor (`core/base.py` dispatch).  Coordinates are `Option ℤ`
because the executor passes `None` through when no coordinate was resolved. -/
inductive PrimCall where
  | mouse_move (x y : Option ℤ) (duration : ℚ)
  | mouse_click (x y : Option ℤ) (button : MouseButton) (clicks : ℕ)
  | mouse_drag (start_x start_y : Option ℤ) (end_x end_y : ℤ)
      (button : MouseButton) (duration : ℚ)
  | mouse_scroll (clicks : ℤ) (x y : Option ℤ) (horizontal : Bool)
  | type_text (s : String)
  | key_press (key : String)
  | key_down (key : String)
  | key_up (key : String)
  | hotkey (keys : List String)
  | wait (seconds : ℚ)
deriving DecidableEq, Repr

/-- The injected `ComputerController` collaborator, as the executor observes
it: the two query primitives may return a value or raise, and every
side-effecting primitive either succeeds or raises an arbitrary exception
(`primFail` gives the exception a given call would raise, if any). -/
structure Controller where
  screen_size : Except PyExc Size
  mouse_position : Except PyExc Point
  primFail : PrimCall → Option PyExc

/-- The `ValueError` message of the `ElementNotFound` failure raised by
`ComputerController.resolve_point`. -/
def elementNotFoundMsg (label : String) : String :=
  "Element with label '" ++ label ++ "' not found"

/-- `ComputerController.resolve_point` of `core/base.py`.  The screen size is
queried first unconditionally; the element-label branch runs only when both
`element_label` and `elements` are Python-truthy (a `None`/empty label and a
`None`/empty element list are all falsy); otherwise a supplied `Point` is
converted, and failing that the live mouse position is queried. -/
def resolve_point (c : Controller) (point : Option Point)
    (element_label : Option String) (elements : Option (List ScreenElement)) :
    Except PyExc (ℤ × ℤ) := do
  let screen ← c.screen_size
  if strTruthy element_label && listTruthy elements then
    let lbl := element_label.getD ""
    match (elements.getD []).find? (fun e => e.label == lbl) with
    | some elem =>
        let center := elem.rect.center
        return (ratTrunc center.x, ratTrunc center.y)
    | none => throw ⟨elementNotFoundMsg lbl⟩
  else
    match point with
    | some p =>
        match p.coordinate_type with
        | .ABSOLUTE => return (ratTrunc p.x, ratTrunc p.y)
        | .PERCENTAGE =>
            return (ratTrunc (p.x * screen.width), ratTrunc (p.y * screen.height))
        | .ELEMENT_LABEL =>
            throw ⟨"Point with ELEMENT_LABEL type requires elements list"⟩
    | none =>
        let pos ← c.mouse_position
        return (ratTrunc pos.x, ratTrunc pos.y)

/-- Issue one primitive call on the controller: the call is recorded if it
succeeds, and its exception propagates if it raises. -/
def callPrim (c : Controller) (p : PrimCall) : Except PyExc (List PrimCall) :=
  match c.primFail p with
  | none => .ok [p]
  | some e => .error e

/-- Issue a sequence of primitive calls, stopping at the first that raises
(models the `for key in action.keys` loop of `KEY_PRESS`). -/
def callPrims (c : Controller) : List PrimCall → Except PyExc (List PrimCall)
  | [] => .ok []
  | p :: ps => do
      let done ← callPrim c p
      let rest ← callPrims c ps
      return done ++ rest

/-- The argument handed to `key_down`/`key_up`:
`action.text or action.keys[0] if action.keys else ""`, which Python parses
as `(action.text or action.keys[0]) if action.keys else ""`. -/
def keyDownUpArg (a : Action) : String :=
  match a.keys with
  | some (k :: _) => pyStrOr a.text k
  | _ => ""

/-- `ActionExecutor._execute_action` of `core/base.py`: resolve the start
coordinate when the action carries one (Python truthiness: a `None`
coordinate and a `None`/empty label skip resolution), then dispatch on the
action type.  The returned list records the primitive controller calls that
were issued; an `Except.error` is a raised exception.  `FOCUS_WINDOW` and
`GET_WINDOW_INFO` are members of the `ActionType` enum with no dispatch
branch, so they reach the final `else` and raise `ValueError`. -/
def executeAction (c : Controller) (elems : List ScreenElement) (a : Action) :
    Except PyExc (List PrimCall) := do
  let xy : Option (ℤ × ℤ) ←
    if a.coordinate.isSome || strTruthy a.element_label then
      (fun r => some r) <$> resolve_point c a.coordinate a.element_label (some elems)
    else
      pure none
  let x := xy.map Prod.fst
  let y := xy.map Prod.snd
  match a.action_type with
  | .MOUSE_MOVE => callPrim c (.mouse_move x y a.duration)
  | .CLICK => callPrim c (.mouse_click x y a.button 1)
  | .DOUBLE_CLICK => callPrim c (.mouse_click x y a.button 2)
  | .RIGHT_CLICK => callPrim c (.mouse_click x y .RIGHT 1)
  | .DRAG => do
      let endXY ← resolve_point c a.end_coordinate a.end_element_label (some elems)
      callPrim c (.mouse_drag x y endXY.1 endXY.2 a.button a.duration)
  | .SCROLL =>
      let amount :=
        if a.scroll_direction = "down" || a.scroll_direction = "left" then
          -a.scroll_amount
        else a.scroll_amount
      let horizontal :=
        a.scroll_direction = "left" || a.scroll_direction = "right"
      callPrim c (.mouse_scroll amount x y horizontal)
  | .TYPE_TEXT => callPrim c (.type_text (pyStrOr a.text ""))
  | .KEY_PRESS =>
      match a.keys with
      | some (k :: ks) => callPrims c ((k :: ks).map .key_press)
      | _ =>
          if strTruthy a.text then callPrim c (.key_press (a.text.getD ""))
          else pure []
  | .KEY_DOWN => callPrim c (.key_down (keyDownUpArg a))
  | .KEY_UP => callPrim c (.key_up (keyDownUpArg a))
  | .HOTKEY =>
      match a.keys with
      | some (k :: ks) => callPrim c (.hotkey (k :: ks))
      | _ => pure []
  | .WAIT => callPrim c (.wait a.duration)
  | .SCREENSHOT => pure []
  | .FOCUS_WINDOW =>
      throw ⟨"Unknown action type: " ++ a.action_type.pyStr⟩
  | .GET_WINDOW_INFO =>
      throw ⟨"Unknown action type: " ++ a.action_type.pyStr⟩

/-- The success `ActionResult` built by `ActionExecutor.execute`. -/
def successResult (a : Action) (sz : Size) (elapsed : ℚ) : ActionResult :=
  { success := true
    message := "Action " ++ a.action_type.value ++ " executed successfully"
    error := none
    screen_size := some sz
    duration := elapsed }

/-- The failure `ActionResult` built by `ActionExecutor.execute`. -/
def failureResult (a : Action) (e : PyExc) (elapsed : ℚ) : ActionResult :=
  { success := false
    message := "Action " ++ a.action_type.value ++ " failed"
    error := some e.msg
    screen_size := none
    duration := elapsed }

/-- `ActionExecutor.execute` of `core/base.py`: run `_execute_action` inside
`try`, query the screen size for the success result (still inside the
`try`), and turn any raised exception into a failure result.  Wall-clock
duration is abstracted into the parameter `elapsed`. -/
def execute (c : Controller) (elems : List ScreenElement) (a : Action)
    (elapsed : ℚ) : ActionResult :=
  match executeAction c elems a with
  | .ok _ =>
      match c.screen_size with
      | .ok sz => successResult a sz elapsed
      | .error e => failureResult a e elapsed
  | .error e => failureResult a e elapsed

/-! ### Retry/backoff engine (`core/retry.py`) -/

/-- `RetryConfig` of `core/retry.py`, parametric in the exception type `ε`.
A Python exception class is modelled extensionally as the predicate
`ε → Bool` that `isinstance(·, cls)` computes; the default
`retryable_exceptions=[Exception]` list becomes `[fun _ => true]` since
every caught exception is an instance of `Exception`.  The callbacks
`on_retry`/`on_failure` and `log_retries` are observation-only (the claims
assume they do not raise) and are not modelled. -/
structure RetryConfig (ε : Type) where
  max_attempts : ℕ := 3
  backoff_strategy : ℕ → ℚ := fun n => min ((1 / 10) * 2 ^ n) 2
  retryable_exceptions : List (ε → Bool) := [fun _ => true]
  non_retryable_exceptions : List (ε → Bool) := []

/-- `RetryConfig.should_retry`: scan the non-retryable classes first
(first match returns `False`), then the retryable classes (first match
returns `True`), else `False`. -/
def RetryConfig.should_retry {ε : Type} (cfg : RetryConfig ε) (e : ε) : Bool :=
  if cfg.non_retryable_exceptions.any (fun cls => cls e) then false
  else cfg.retryable_exceptions.any (fun cls => cls e)

/-- One invocation of the wrapped executor, as `execute_with_retry` observes
it: either it returns an `ActionResult` or it raises. -/
inductive ExecOutcome (ε : Type) where
  | ok (r : ActionResult)
  | raise (e : ε)

/-- The statistics counters of a `RetryExecutor`. -/
structure RetryStats where
  total_attempts : ℕ
  successful_attempts : ℕ
  failed_attempts : ℕ
  retry_count : ℕ
deriving DecidableEq, Repr

/-- Counters of a freshly constructed `RetryExecutor` (and after
`reset_stats`). -/
def initStats : RetryStats := ⟨0, 0, 0, 0⟩

/-- `RetryExecutor.reset_stats`. -/
def reset_stats (_ : RetryStats) : RetryStats := initStats

/-- The `success_rate` entry of `RetryExecutor.stats`. -/
def successRate (st : RetryStats) : ℚ :=
  if 0 < st.total_attempts then
    (st.successful_attempts : ℚ) / (st.total_attempts : ℚ)
  else 0

/-- The "last error" that one failing invocation leaves behind: the raised
exception, or — when the executor returned a Result with `success=False` —
the synthesized `Exception(result.error or "Action failed")`. -/
def outcomeErr {ε : Type} (mkExc : String → ε) : ExecOutcome ε → ε
  | .raise e => e
  | .ok r => mkExc (pyStrOr r.error "Action failed")

/-- The failure `ActionResult` returned when all attempts are exhausted
(`success=False`, `error=str(last_error)`, every other field left at its
dataclass default).  `str(None)` is the Python rendering `"None"`. -/
def exhaustedResult {ε : Type} (estr : ε → String) (max_attempts : ℕ)
    (lastError : Option ε) : ActionResult :=
  { success := false
    message := "Action failed after " ++ toString max_attempts ++ " attempts"
    error := some (match lastError with | some e => estr e | none => "None")
    screen_size := none
    duration := 0 }

/-- The `for attempt in range(max_attempts)` loop of
`RetryExecutor.execute_with_retry`.  `attempt` is the 0-based loop index and
`fuel = max_attempts - attempt` the number of allowed invocations still
remaining; `exec n` is the outcome of the `n`-th invocation of the wrapped
executor during this call.  When `fuel` runs out, or a failure is classified
non-retryable, control falls through to final-failure handling
(`failed_attempts += 1`, return the exhausted result). -/
def retryLoop {ε : Type} (cfg : RetryConfig ε) (mkExc : String → ε)
    (estr : ε → String) (exec : ℕ → ExecOutcome ε) :
    ℕ → ℕ → Option ε → RetryStats → RetryStats × ActionResult
  | _, 0, lastError, st =>
      ({ st with failed_attempts := st.failed_attempts + 1 },
       exhaustedResult estr cfg.max_attempts lastError)
  | attempt, fuel + 1, _, st =>
      let st := { st with total_attempts := st.total_attempts + 1 }
      let outcome : ActionResult ⊕ ε :=
        match exec attempt with
        | .ok r =>
            if r.success then .inl r else .inr (outcomeErr mkExc (.ok r))
        | .raise e => .inr e
      match outcome with
      | .inl r =>
          ({ st with successful_attempts := st.successful_attempts + 1 }, r)
      | .inr e =>
          if fuel = 0 then
            ({ st with failed_attempts := st.failed_attempts + 1 },
             exhaustedResult estr cfg.max_attempts (some e))
          else if !cfg.should_retry e then
            ({ st with failed_attempts := st.failed_attempts + 1 },
             exhaustedResult estr cfg.max_attempts (some e))
          else
            retryLoop cfg mkExc estr exec (attempt + 1) fuel (some e)
              { st with retry_count := st.retry_count + 1 }

/-- `RetryExecutor.execute_with_retry`: run the attempt loop from attempt 0
with `max_attempts` invocations allowed and no last error, threading the
statistics counters. -/
def execute_with_retry {ε : Type} (cfg : RetryConfig ε) (mkExc : String → ε)
    (estr : ε → String) (exec : ℕ → ExecOutcome ε) (st : RetryStats) :
    RetryStats × ActionResult :=
  retryLoop cfg mkExc estr exec 0 cfg.max_attempts none st

/-! ### Async agent loop (`src/async_agent.py`)

`AsyncComputerAgent.step` increments `_current_step`, captures a
`ScreenState`, publishes the elements, and awaits `brain.think` under
`asyncio.wait_for(..., timeout=step_timeout)`.  Three outcomes are possible
at the decision phase, and they are all the loop in `run` can observe of a
step (plus the executed action/result pair appended to history):

* the think call times out (`asyncio.TimeoutError`): `step` returns
  `(None, None, screen_state)`;
* think returns `None`: `step` returns `(None, None, screen_state)` — the
  same value, indistinguishable from a timeout for the caller;
* think returns an action: it is executed, the result callback fires, the
  pair is appended to `_history`, and `step` returns the triple.

`run` resets `_current_step`/`_history`/`_cancelled` and loops
`while self._current_step < max_steps and not self._cancelled`; a `None`
action returns `True`; a `False` `should_continue` returns `True`; leaving
the loop returns `False` (whether by cancellation or by step budget). -/

/-- What the decision phase of one step yields to the `run` loop:
a timeout of `brain.think`, an explicit `None` ("done"), or an action
together with the `ActionResult` its execution produced. -/
inductive ThinkOutcome where
  | timeout
  | done
  | act (a : Action) (r : ActionResult)
deriving DecidableEq, Repr

/-- The observable outcome of one `AsyncComputerAgent.run` call: the boolean
it returns, the final `_current_step`, and the length of `_history`. -/
structure RunResult where
  success : Bool
  steps : ℕ
  histLen : ℕ
deriving DecidableEq, Repr

/-- The `while` loop of `AsyncComputerAgent.run`.  `brain n` is the decision
outcome of the step that raises `_current_step` to `n` (1-based);
`shouldCont n` is `brain.should_continue(n, ·)`; `cancelFlag k` is the value
of the `_cancelled` flag observed by the loop condition when
`_current_step = k` (the flag is checked only there, between steps).
`fuel = max_steps - step` counts the remaining step budget; `hist` is the
current length of `_history`. -/
def runLoop (brain : ℕ → ThinkOutcome) (shouldCont : ℕ → Bool)
    (cancelFlag : ℕ → Bool) : ℕ → ℕ → ℕ → RunResult
  | step, 0, hist => ⟨false, step, hist⟩
  | step, fuel + 1, hist =>
      if cancelFlag step then ⟨false, step, hist⟩
      else
        match brain (step + 1) with
        | .timeout => ⟨true, step + 1, hist⟩
        | .done => ⟨true, step + 1, hist⟩
        | .act _ _ =>
            if shouldCont (step + 1) then
              runLoop brain shouldCont cancelFlag (step + 1) fuel (hist + 1)
            else ⟨true, step + 1, hist + 1⟩

/-- `AsyncComputerAgent.run`: counters reset, then the loop from step 0 with
the full step budget and empty history. -/
def asyncRun (brain : ℕ → ThinkOutcome) (shouldCont : ℕ → Bool)
    (cancelFlag : ℕ → Bool) (max_steps : ℕ) : RunResult :=
  runLoop brain shouldCont cancelFlag 0 max_steps 0

/-! ### Concrete instances used by witnesses and counterexamples -/

/-- A controller whose queries succeed (screen 1920x1080, pointer at the
origin) and whose primitives never raise. -/
def okController : Controller :=
  { screen_size := .ok ⟨1920, 1080⟩
    mouse_position := .ok ⟨0, 0, .ABSOLUTE⟩
    primFail := fun _ => none }

/-- The two detected elements of the spec's worked example: labels `~0` and
`~1`, the latter with bounding box (100,100,200,200). -/
def sampleElements : List ScreenElement :=
  [ { label := "~0", rect := ⟨0, 0, 50, 50⟩ },
    { label := "~1", rect := ⟨100, 100, 200, 200⟩ } ]

/-- A retry configuration over a unit exception type with three attempts and
everything retryable (the shape of the spec's `max_attempts=3` example). -/
def unitRetryConfig : RetryConfig Unit :=
  { max_attempts := 3 }

/-- An executor that raises on its first two invocations and returns a
success result on the third. -/
def failTwiceExec : ℕ → ExecOutcome Unit :=
  fun n => if n < 2 then .raise () else .ok { success := true }

/-- An executor that raises on every invocation. -/
def alwaysFailExec : ℕ → ExecOutcome Unit :=
  fun _ => .raise ()

/-- Whether one invocation of the wrapped executor counts as a failure for
the retry loop: it raised, or it returned a Result with `success=False`. -/
def outcomeFails {ε : Type} : ExecOutcome ε → Bool
  | .ok r => !r.success
  | .raise _ => true

/-- The counter invariant of `RetryExecutor`: every counted attempt is a
success, the final failure of a call, or a retried failure. -/
def statsInv (st : RetryStats) : Prop :=
  st.total_attempts =
    st.successful_attempts + st.failed_attempts + st.retry_count

instance : DecidablePred statsInv := fun st => by
  unfold statsInv; infer_instance

/-! ## Helper lemmas -/

theorem ratTrunc_intCast (n : ℤ) : ratTrunc (n : ℚ) = n := by
  unfold ratTrunc
  split
  · exact Int.floor_intCast n
  · rw [← Int.cast_neg, Int.floor_intCast]
    omega

theorem abs_ratTrunc_sub_lt_one (q : ℚ) : |(ratTrunc q : ℚ) - q| < 1 := by
  unfold ratTrunc
  split
  · have h1 := Int.floor_le q
    have h2 := Int.lt_floor_add_one q
    rw [abs_lt]
    constructor <;> linarith
  · have h1 := Int.floor_le (-q)
    have h2 := Int.lt_floor_add_one (-q)
    rw [abs_lt]
    constructor <;> push_cast
    · linarith
    · linarith

theorem abs_ratTrunc_half_le (a : ℤ) :
    |(ratTrunc ((a : ℚ) / 2) : ℚ) - (a : ℚ) / 2| ≤ 1 / 2 := by
  rcases Int.even_or_odd a with ⟨k, hk⟩ | ⟨k, hk⟩
  · have hval : ((a : ℚ)) / 2 = (k : ℚ) := by
      subst hk; push_cast; ring
    rw [hval, ratTrunc_intCast]
    simp
  · subst hk
    have hval : (((2 * k + 1 : ℤ) : ℚ)) / 2 = (k : ℚ) + 1 / 2 := by
      push_cast; ring
    rw [hval]
    rcases le_or_lt 0 ((k : ℚ) + 1 / 2) with hpos | hneg
    · have hfloor : ⌊(k : ℚ) + 1 / 2⌋ = k := by
        rw [Int.floor_eq_iff]
        constructor
        · linarith
        · linarith
      rw [ratTrunc, if_pos hpos, hfloor]
      rw [abs_le]
      constructor <;> linarith
    · have hfloor : ⌊-((k : ℚ) + 1 / 2)⌋ = -(k + 1) := by
        rw [Int.floor_eq_iff]
        constructor
        · push_cast; linarith
        · push_cast; linarith
      rw [ratTrunc, if_neg (not_le.mpr hneg), hfloor]
      rw [abs_le]
      constructor <;> push_cast
      · linarith
      · linarith

/-- The center coordinates of an integer `Rect` are integer halves. -/
theorem Rect.center_x_eq (r : Rect) :
    r.center.x = ((r.left + r.right : ℤ) : ℚ) / 2 := by
  simp [Rect.center]

theorem Rect.center_y_eq (r : Rect) :
    r.center.y = ((r.top + r.bottom : ℤ) : ℚ) / 2 := by
  simp [Rect.center]

/-! ## Claim C7 -/

/-- C7, counterexample: the claim says `to_absolute` of a PERCENTAGE point
yields `(floor(px*w), floor(py*h))` for every `px`, but Python `int()`
truncates toward zero: at `px = -3/4`, `w = 2` the code yields x-coordinate
`-1` while `floor(-3/4 * 2) = -2`. -/
theorem C7_counterexample :
    Point.to_absolute ⟨-3/4, 0, .PERCENTAGE⟩ 2 2 = .ok ⟨-1, 0, .ABSOLUTE⟩
    ∧ ⌊(-3/4 : ℚ) * 2⌋ = -2 ∧ ((-1 : ℤ) ≠ -2) := by
  refine ⟨?_, ?_, by decide⟩
  · have hx : ratTrunc ((-3/4 : ℚ) * 2) = -1 := by
      have hneg : ¬(0 : ℚ) ≤ (-3/4 : ℚ) * 2 := by norm_num
      have hfloor : ⌊-((-3/4 : ℚ) * 2)⌋ = 1 := by
        rw [Int.floor_eq_iff]
        norm_num
      rw [ratTrunc, if_neg hneg, hfloor]
    have hy : ratTrunc ((0 : ℚ) * 2) = 0 := by
      rw [zero_mul, ← Int.cast_zero, ratTrunc_intCast]
    simp only [Point.to_absolute]
    push_cast
    rw [hx, hy]
    norm_num
  · rw [Int.floor_eq_iff]
    norm_num

/-- C7 (amended): for a PERCENTAGE point `(px, py)` and positive screen size
`(w, h)`, `to_absolute` yields the ABSOLUTE point
`(trunc(px*w), trunc(py*h))` where `trunc` is truncation toward zero
(Python `int()`), which agrees with `floor` whenever the fraction is
nonnegative; and `to_percentage` of that result recovers each original
fraction within strictly less than `1/w` resp. `1/h`. -/
theorem C7_to_absolute_trunc_roundtrip (px py : ℚ) (w h : ℤ)
    (hw : 0 < w) (hh : 0 < h) :
    Point.to_absolute ⟨px, py, .PERCENTAGE⟩ w h =
      .ok ⟨(ratTrunc (px * w) : ℤ), (ratTrunc (py * h) : ℤ), .ABSOLUTE⟩
    ∧ (0 ≤ px → ratTrunc (px * w) = ⌊px * w⌋)
    ∧ (0 ≤ py → ratTrunc (py * h) = ⌊py * h⌋)
    ∧ ∃ q : Point,
        Point.to_percentage
          ⟨(ratTrunc (px * w) : ℤ), (ratTrunc (py * h) : ℤ), .ABSOLUTE⟩ w h
          = .ok q
        ∧ q.coordinate_type = .PERCENTAGE
        ∧ |q.x - px| < 1 / (w : ℚ) ∧ |q.y - py| < 1 / (h : ℚ) := by
  have hwq : (0 : ℚ) < (w : ℚ) := by exact_mod_cast hw
  have hhq : (0 : ℚ) < (h : ℚ) := by exact_mod_cast hh
  refine ⟨rfl, ?_, ?_, ?_⟩
  · intro hpx
    rw [ratTrunc, if_pos (mul_nonneg hpx (le_of_lt hwq))]
  · intro hpy
    rw [ratTrunc, if_pos (mul_nonneg hpy (le_of_lt hhq))]
  · refine ⟨_, rfl, rfl, ?_, ?_⟩
    · have hrw : ((ratTrunc (px * w) : ℚ)) / (w : ℚ) - px
          = ((ratTrunc (px * w) : ℚ) - px * w) / (w : ℚ) := by
        field_simp
        ring
      show |((ratTrunc (px * w) : ℚ)) / (w : ℚ) - px| < 1 / (w : ℚ)
      rw [hrw, abs_div, abs_of_pos hwq, div_lt_div_iff_of_pos_right hwq]
      exact abs_ratTrunc_sub_lt_one (px * w)
    · have hrh : ((ratTrunc (py * h) : ℚ)) / (h : ℚ) - py
          = ((ratTrunc (py * h) : ℚ) - py * h) / (h : ℚ) := by
        field_simp
        ring
      show |((ratTrunc (py * h) : ℚ)) / (h : ℚ) - py| < 1 / (h : ℚ)
      rw [hrh, abs_div, abs_of_pos hhq, div_lt_div_iff_of_pos_right hhq]
      exact abs_ratTrunc_sub_lt_one (py * h)

/-- Witness for C7: the amended theorem applied at `px = py = 1/2`,
`w = h = 3`; the truncated absolute point is `(1, 1)`. -/
theorem C7_witness :
    Point.to_absolute ⟨1/2, 1/2, .PERCENTAGE⟩ 3 3 = .ok ⟨1, 1, .ABSOLUTE⟩ := by
  have h := (C7_to_absolute_trunc_roundtrip (1/2) (1/2) 3 3
    (by norm_num) (by norm_num)).1
  have h3 : ((3 : ℤ) : ℚ) = 3 := by norm_num
  rw [h3] at h
  rw [h]
  have ht : ratTrunc ((1/2 : ℚ) * 3) = 1 := by
    have hpos : (0 : ℚ) ≤ (1/2 : ℚ) * 3 := by norm_num
    have hfloor : ⌊(1/2 : ℚ) * 3⌋ = 1 := by
      rw [Int.floor_eq_iff]
      norm_num
    rw [ratTrunc, if_pos hpos, hfloor]
  rw [ht]
  norm_num

/-! ## Claims C2 and C3 -/

/-- C2, counterexample: with a supplied label but an *empty* current element
set, `resolve_point` does not fail with `ElementNotFound` — the label branch
is skipped (an empty list is falsy in `if element_label and elements:`) and
resolution silently falls back to the supplied Point `(5, 5)`. -/
theorem C2_counterexample :
    resolve_point okController (some ⟨5, 5, .ABSOLUTE⟩) (some "~1") (some [])
      = .ok (5, 5)
    ∧ (Except.ok (5, 5) : Except PyExc (ℤ × ℤ))
      ≠ .error ⟨elementNotFoundMsg "~1"⟩ := by
  constructor
  · simp [resolve_point, okController, strTruthy, listTruthy, ratTrunc]
  · intro hcontra
    exact Except.noConfusion hcontra

/-- C2 (amended): when a (truthy) element label is supplied and the current
element set is *non-empty* but contains no element with that label,
resolution fails with the `ElementNotFound` error and never falls back to
the supplied Point or the pointer position; with an empty (or absent)
element set the label branch is skipped instead (see the counterexample). -/
theorem C2_label_not_found (c : Controller) (p : Option Point) (s : String)
    (l : List ScreenElement) (sz : Size)
    (hscreen : c.screen_size = .ok sz) (hs : s ≠ "") (hl : l ≠ [])
    (hnone : ∀ e ∈ l, e.label ≠ s) :
    resolve_point c p (some s) (some l) = .error ⟨elementNotFoundMsg s⟩ := by
  have hbeq : (s == "") = false := beq_eq_false_iff_ne.mpr hs
  have hempty : l.isEmpty = false := by
    cases l with
    | nil => exact absurd rfl hl
    | cons a t => rfl
  have hfind : l.find? (fun x => x.label == s) = none := by
    rw [List.find?_eq_none]
    intro x hx
    simpa using hnone x hx
  simp [resolve_point, hscreen, strTruthy, listTruthy, hbeq, hempty, hfind,
    Bind.bind, Except.bind, throw, throwThe, MonadExceptOf.throw]

/-- Witness for C2 (amended): a one-element list without the requested
label makes the resolver fail with `ElementNotFound`, even though a
fallback Point is available. -/
theorem C2_witness :
    resolve_point okController (some ⟨5, 5, .ABSOLUTE⟩) (some "~1")
      (some [{ label := "~0", rect := ⟨0, 0, 50, 50⟩ }])
      = .error ⟨elementNotFoundMsg "~1"⟩ := by
  refine C2_label_not_found okController _ "~1" _ ⟨1920, 1080⟩ rfl
    (by decide) (by simp) ?_
  intro e he
  simp at he
  rw [he]
  decide

/-- C3: when a (truthy) element label is supplied and the current element
list contains a matching element, `resolve_point` returns the first matching
element's rectangle center with each exact (half-integer) coordinate
truncated — and the truncated value is a nearest integer to the exact
center coordinate (distance at most 1/2).  The screen-size query, issued
first unconditionally, is assumed to succeed. -/
theorem C3_label_resolves_to_center (c : Controller) (p : Option Point)
    (s : String) (l : List ScreenElement) (e : ScreenElement) (sz : Size)
    (hscreen : c.screen_size = .ok sz) (hs : s ≠ "")
    (hfind : l.find? (fun x => x.label == s) = some e) :
    resolve_point c p (some s) (some l) =
      .ok (ratTrunc e.rect.center.x, ratTrunc e.rect.center.y)
    ∧ |(ratTrunc e.rect.center.x : ℚ) - e.rect.center.x| ≤ 1 / 2
    ∧ |(ratTrunc e.rect.center.y : ℚ) - e.rect.center.y| ≤ 1 / 2 := by
  have hbeq : (s == "") = false := beq_eq_false_iff_ne.mpr hs
  have hempty : l.isEmpty = false := by
    cases l with
    | nil => simp at hfind
    | cons a t => rfl
  refine ⟨?_, ?_, ?_⟩
  · simp [resolve_point, hscreen, strTruthy, listTruthy, hbeq, hempty, hfind]
  · rw [Rect.center_x_eq]
    exact abs_ratTrunc_half_le (e.rect.left + e.rect.right)
  · rw [Rect.center_y_eq]
    exact abs_ratTrunc_half_le (e.rect.top + e.rect.bottom)

/-- Witness for C3: the spec's worked example — resolving `~1` against
elements `~0` and `~1` (the latter with rect (100,100,200,200)) yields the
absolute point (150, 150). -/
theorem C3_witness :
    resolve_point okController none (some "~1") (some sampleElements)
      = .ok (150, 150) := by
  have h := (C3_label_resolves_to_center okController none "~1" sampleElements
      { label := "~1", rect := ⟨100, 100, 200, 200⟩ } ⟨1920, 1080⟩ rfl
      (by decide) (by decide)).1
  rw [h]
  have hx : ({ label := "~1", rect := ⟨100, 100, 200, 200⟩ }
      : ScreenElement).rect.center.x = ((150 : ℤ) : ℚ) := by
    rw [Rect.center_x_eq]
    norm_num
  have hy : ({ label := "~1", rect := ⟨100, 100, 200, 200⟩ }
      : ScreenElement).rect.center.y = ((150 : ℤ) : ℚ) := by
    rw [Rect.center_y_eq]
    norm_num
  rw [hx, hy, ratTrunc_intCast]

/-! ## Claims C5 and C10 -/

/-- C5: `ActionExecutor.execute` never raises — it is a total function into
`ActionResult`.  Every run is either the success case (dispatch and the
success-path screen-size query both succeed) or the failure case, and in the
failure case the Result is exactly `failureResult`: `success=false`, the
raised exception's message in `error`, and the elapsed duration recorded.
This covers resolution failures, controller primitives raising arbitrarily,
and the unknown-action `ValueError` alike, since all surface as the
`Except.error` of `executeAction`. -/
theorem C5_execute_never_raises (c : Controller) (elems : List ScreenElement)
    (a : Action) (t : ℚ) :
    (∃ calls sz, executeAction c elems a = .ok calls
        ∧ c.screen_size = .ok sz
        ∧ execute c elems a t = successResult a sz t)
    ∨ (∃ e : PyExc,
        (executeAction c elems a = .error e
          ∨ (c.screen_size = .error e
              ∧ ∃ calls, executeAction c elems a = .ok calls))
        ∧ execute c elems a t = failureResult a e t) := by
  cases hx : executeAction c elems a with
  | ok calls =>
      cases hs : c.screen_size with
      | ok sz =>
          left
          exact ⟨calls, sz, rfl, rfl, by simp [execute, hx, hs]⟩
      | error e =>
          right
          exact ⟨e, .inr ⟨rfl, calls, rfl⟩, by simp [execute, hx, hs]⟩
  | error e =>
      right
      exact ⟨e, .inl rfl, by simp [execute, hx]⟩

/-- C10: for a `KEY_DOWN` or `KEY_UP` action whose `keys` field is `None`
(and which carries no coordinate, so dispatch is reached), the executor
invokes the controller's `key_down`/`key_up` with the empty string, whatever
the `text` field holds — because
`action.text or action.keys[0] if action.keys else ""` groups as
`(action.text or action.keys[0]) if action.keys else ""` — whereas a
`KEY_PRESS` action with only (non-empty) `text` set does pass the text. -/
theorem C10_keydownup_empty_key (c : Controller) (elems : List ScreenElement)
    (a : Action) (hkeys : a.keys = none) (hcoord : a.coordinate = none)
    (hlabel : a.element_label = none) :
    (a.action_type = .KEY_DOWN →
       executeAction c elems a = callPrim c (.key_down ""))
    ∧ (a.action_type = .KEY_UP →
       executeAction c elems a = callPrim c (.key_up ""))
    ∧ (∀ s, a.action_type = .KEY_PRESS → a.text = some s → s ≠ "" →
       executeAction c elems a = callPrim c (.key_press s)) := by
  refine ⟨?_, ?_, ?_⟩
  · intro h
    simp [executeAction, hcoord, hlabel, strTruthy, h, keyDownUpArg, hkeys]
  · intro h
    simp [executeAction, hcoord, hlabel, strTruthy, h, keyDownUpArg, hkeys]
  · intro s h htext hs
    have hbeq : (s == "") = false := beq_eq_false_iff_ne.mpr hs
    simp [executeAction, hcoord, hlabel, strTruthy, h, hkeys, htext, hbeq]

/-- Witness for C10: a `KEY_DOWN` action with `text="enter"` and no `keys`
still reaches the controller as `key_down("")`. -/
theorem C10_witness :
    executeAction okController []
        { action_type := .KEY_DOWN, text := some "enter" }
      = callPrim okController (.key_down "") :=
  (C10_keydownup_empty_key okController []
    { action_type := .KEY_DOWN, text := some "enter" } rfl rfl rfl).1 rfl

/-! ## Claims C1 and C8 -/

/-- After `d` acting steps from check-point `step`, a decision timeout at
step `step + d + 1` makes the loop return `True` immediately with the
timed-out step counted and `d` history entries added. -/
theorem runLoop_timeout (brain : ℕ → ThinkOutcome) (sc cf : ℕ → Bool) :
    ∀ (d step fuel hist : ℕ), d < fuel →
    (∀ k, step ≤ k → k ≤ step + d → cf k = false) →
    (∀ i, step + 1 ≤ i → i ≤ step + d → (∃ a r, brain i = .act a r) ∧ sc i = true) →
    brain (step + d + 1) = .timeout →
    runLoop brain sc cf step fuel hist = ⟨true, step + d + 1, hist + d⟩ := by
  intro d
  induction d with
  | zero =>
      intro step fuel hist hfuel hcf _ htimeout
      obtain ⟨f, rfl⟩ : ∃ f, fuel = f + 1 := ⟨fuel - 1, by omega⟩
      have hc : cf step = false := hcf step le_rfl (by omega)
      simp [runLoop, hc, htimeout]
  | succ d ih =>
      intro step fuel hist hfuel hcf hact
      obtain ⟨f, rfl⟩ : ∃ f, fuel = f + 1 := ⟨fuel - 1, by omega⟩
      intro htimeout
      have hc : cf step = false := hcf step le_rfl (by omega)
      obtain ⟨⟨a, r, hbrain⟩, hsc⟩ := hact (step + 1) le_rfl (by omega)
      have hrec := ih (step + 1) f (hist + 1) (by omega)
        (fun k hk1 hk2 => hcf k (by omega) (by omega))
        (fun i hi1 hi2 => hact i (by omega) (by omega))
        (by rw [show step + 1 + d + 1 = step + (d + 1) + 1 by omega, htimeout])
      simp only [runLoop, hc, Bool.false_eq_true, if_false, hbrain, hsc, if_true]
      rw [hrec]
      congr 1 <;> omega

/-- C1, counterexample: a brain whose decision phase times out at step 1,
with a step budget of 5, does *not* have the loop continue to subsequent
steps — the run terminates at once through the no-action path, returning
the success outcome `True` after exactly one step. -/
theorem C1_counterexample :
    asyncRun (fun _ => .timeout) (fun _ => true) (fun _ => false) 5
      = ⟨true, 1, 0⟩
    ∧ ¬(2 ≤ (asyncRun (fun _ => .timeout) (fun _ => true)
              (fun _ => false) 5).steps) := by
  decide

/-- C1 (amended): in the async agent, when `Brain.think` exceeds the
per-step decision timeout at step `n` of a run that reached that step
(no earlier cancellation, every earlier step produced an action and
continued), the step is aborted as if the brain had produced no action —
and since an absent action is the run's completion signal, the run
terminates immediately with the success outcome `True` after exactly `n`
steps (`n - 1` history entries); the loop does not continue to subsequent
steps even when the step budget is not exhausted. -/
theorem C1_timeout_terminates_run (brain : ℕ → ThinkOutcome)
    (sc cf : ℕ → Bool) (maxSteps n : ℕ)
    (hn : 1 ≤ n) (hmax : n ≤ maxSteps)
    (hcf : ∀ k, k < n → cf k = false)
    (hact : ∀ i, 1 ≤ i → i < n → (∃ a r, brain i = .act a r) ∧ sc i = true)
    (htimeout : brain n = .timeout) :
    asyncRun brain sc cf maxSteps = ⟨true, n, n - 1⟩ := by
  have h := runLoop_timeout brain sc cf (n - 1) 0 maxSteps 0 (by omega)
    (fun k hk1 hk2 => hcf k (by omega))
    (fun i hi1 hi2 => hact i (by omega) (by omega))
    (by rw [show 0 + (n - 1) + 1 = n by omega, htimeout])
  rw [asyncRun, h]
  congr 1 <;> omega

/-- Witness for C1: a brain that times out immediately, budget 5 — the run
returns `True` with one step taken and empty history. -/
theorem C1_witness :
    asyncRun (fun _ => .timeout) (fun _ => true) (fun _ => false) 5
      = ⟨true, 1, 0⟩ :=
  C1_timeout_terminates_run (fun _ => .timeout) (fun _ => true)
    (fun _ => false) 5 1 (by decide) (by decide)
    (fun k _ => rfl)
    (fun i hi1 hi2 => absurd (hi1.trans_lt hi2) (by decide))
    rfl

/-- If the cancellation flag is raised at some between-steps check inside
the step budget (and was never raised earlier), a run over an
always-acting, always-continuing brain stops at the first flagged check:
it returns `False`, executes exactly that many steps, and executes none
after the flag is observed. -/
theorem runLoop_cancelled (brain : ℕ → ThinkOutcome) (sc cf : ℕ → Bool)
    (hact : ∀ n, ∃ a r, brain n = .act a r) (hsc : ∀ n, sc n = true) :
    ∀ (fuel step hist : ℕ), (∃ k, k < step + fuel ∧ cf k = true) →
    (∀ i, i < step → cf i = false) →
    (runLoop brain sc cf step fuel hist).success = false
    ∧ (runLoop brain sc cf step fuel hist).steps < step + fuel
    ∧ cf (runLoop brain sc cf step fuel hist).steps = true
    ∧ ∀ i, i < (runLoop brain sc cf step fuel hist).steps → cf i = false := by
  intro fuel
  induction fuel with
  | zero =>
      intro step hist ⟨k, hk, hflag⟩ hprev
      exact absurd hflag (by simp [hprev k (by omega)])
  | succ f ih =>
      intro step hist hk hprev
      cases hstep : cf step with
      | true =>
          have hrl : runLoop brain sc cf step (f + 1) hist
              = ⟨false, step, hist⟩ := by
            simp [runLoop, hstep]
          rw [hrl]
          exact ⟨rfl, by show step < step + (f + 1); omega, hstep, hprev⟩
      | false =>
          obtain ⟨a, r, hbrain⟩ := hact (step + 1)
          have hunfold : runLoop brain sc cf step (f + 1) hist
              = runLoop brain sc cf (step + 1) f (hist + 1) := by
            simp [runLoop, hstep, hbrain, hsc (step + 1)]
          obtain ⟨k, hkb, hkf⟩ := hk
          have hkne : k ≠ step := fun h => by rw [h, hstep] at hkf; cases hkf
          have hrec := ih (step + 1) (hist + 1) ⟨k, by omega, hkf⟩
            (fun i hi => by
              rcases Nat.lt_succ_iff_lt_or_eq.mp hi with hi' | rfl
              · exact hprev i hi'
              · exact hstep)
          rw [hunfold]
          exact ⟨hrec.1, by omega, hrec.2.2.1, hrec.2.2.2⟩

/-- C8: once `cancel()` has set the flag, the flag is observed at a
between-steps check of the loop condition (the only place it is read, so an
in-flight step is never preempted); the run then returns the non-success
outcome `False`, and the number of executed steps equals the index of the
first check at which the flag was seen — no further steps execute — provided
the flag is raised before `max_steps` checks and the brain neither returns
`None` nor stops the run itself. -/
theorem C8_cancellation (brain : ℕ → ThinkOutcome) (sc cf : ℕ → Bool)
    (maxSteps : ℕ)
    (hact : ∀ n, ∃ a r, brain n = .act a r) (hsc : ∀ n, sc n = true)
    (hcancel : ∃ k, k < maxSteps ∧ cf k = true) :
    (asyncRun brain sc cf maxSteps).success = false
    ∧ (asyncRun brain sc cf maxSteps).steps < maxSteps
    ∧ cf (asyncRun brain sc cf maxSteps).steps = true
    ∧ ∀ i, i < (asyncRun brain sc cf maxSteps).steps → cf i = false := by
  have h := runLoop_cancelled brain sc cf hact hsc maxSteps 0 0
    (by simpa using hcancel) (fun i hi => absurd hi (Nat.not_lt_zero i))
  simpa [asyncRun] using h

/-- Witness for C8: flag raised at check 2 of a 5-step budget over an
always-acting brain — the run fails and stops after exactly 2 steps. -/
theorem C8_witness :
    (asyncRun (fun _ => .act { action_type := .WAIT } { success := true })
        (fun _ => true) (fun k => decide (2 ≤ k)) 5).success = false
    ∧ (asyncRun (fun _ => .act { action_type := .WAIT } { success := true })
        (fun _ => true) (fun k => decide (2 ≤ k)) 5).steps < 5 :=
  ⟨(C8_cancellation _ _ _ 5 (fun n => ⟨_, _, rfl⟩) (fun _ => rfl)
      ⟨2, by decide, by decide⟩).1,
   (C8_cancellation _ _ _ 5 (fun n => ⟨_, _, rfl⟩) (fun _ => rfl)
      ⟨2, by decide, by decide⟩).2.1⟩

/-! ## Claims C4, C6 and C9 -/

/-- If every remaining invocation fails and is classified retryable, the
attempt loop uses up all its fuel, ends in final-failure handling, and
reports the last invocation's error. -/
theorem retryLoop_allFail {ε : Type} (cfg : RetryConfig ε)
    (mkExc : String → ε) (estr : ε → String) (exec : ℕ → ExecOutcome ε) :
    ∀ (fuel attempt : ℕ) (le : Option ε) (st : RetryStats), 1 ≤ fuel →
    (∀ i, attempt ≤ i → i < attempt + fuel →
       outcomeFails (exec i) = true
       ∧ cfg.should_retry (outcomeErr mkExc (exec i)) = true) →
    retryLoop cfg mkExc estr exec attempt fuel le st
      = ({ st with total_attempts := st.total_attempts + fuel,
                   failed_attempts := st.failed_attempts + 1,
                   retry_count := st.retry_count + (fuel - 1) },
         exhaustedResult estr cfg.max_attempts
           (some (outcomeErr mkExc (exec (attempt + fuel - 1))))) := by
  intro fuel
  induction fuel with
  | zero => intro attempt le st h; omega
  | succ f ih =>
      intro attempt le st _ hfail
      obtain ⟨hfails, hretry⟩ := hfail attempt le_rfl (by omega)
      simp only [outcomeErr] at hretry
      rcases Nat.eq_zero_or_pos f with hf | hf
      · subst hf
        cases hexec : exec attempt with
        | ok r =>
            rw [hexec] at hfails hretry
            have hrs : r.success = false := by simpa [outcomeFails] using hfails
            simp [retryLoop, hexec, hrs, outcomeErr]
        | raise e =>
            rw [hexec] at hfails hretry
            simp [retryLoop, hexec, outcomeErr]
      · have hf0 : ¬(f = 0) := by omega
        have hstep : retryLoop cfg mkExc estr exec attempt (f + 1) le st
            = retryLoop cfg mkExc estr exec (attempt + 1) f
                (some (outcomeErr mkExc (exec attempt)))
                { st with total_attempts := st.total_attempts + 1,
                          retry_count := st.retry_count + 1 } := by
          cases hexec : exec attempt with
          | ok r =>
              rw [hexec] at hfails hretry
              simp only [outcomeErr] at hretry
              have hrs : r.success = false := by simpa [outcomeFails] using hfails
              simp [retryLoop, hexec, hrs, hretry, hf0, outcomeErr]
          | raise e =>
              rw [hexec] at hfails hretry
              simp only [outcomeErr] at hretry
              simp [retryLoop, hexec, hretry, hf0, outcomeErr]
        rw [hstep,
          ih (attempt + 1) (some (outcomeErr mkExc (exec attempt))) _ hf
            (fun i hi1 hi2 => hfail i (by omega) (by omega))]
        obtain ⟨t, s, fa, rc⟩ := st
        have hidx : attempt + 1 + f - 1 = attempt + (f + 1) - 1 := by omega
        rw [hidx]
        simp only [Prod.mk.injEq, RetryStats.mk.injEq, eq_self_iff_true,
          and_true, true_and]
        omega

/-- If the first `k` invocations fail retryably and invocation `k` (still
within the fuel budget) returns a success Result, the attempt loop returns
that Result after exactly `k + 1` invocations and `k` retries. -/
theorem retryLoop_failsThenOk {ε : Type} (cfg : RetryConfig ε)
    (mkExc : String → ε) (estr : ε → String) (exec : ℕ → ExecOutcome ε) :
    ∀ (k attempt fuel : ℕ) (le : Option ε) (st : RetryStats)
      (r : ActionResult), k < fuel →
    (∀ i, attempt ≤ i → i < attempt + k →
       outcomeFails (exec i) = true
       ∧ cfg.should_retry (outcomeErr mkExc (exec i)) = true) →
    exec (attempt + k) = .ok r → r.success = true →
    retryLoop cfg mkExc estr exec attempt fuel le st
      = ({ st with total_attempts := st.total_attempts + (k + 1),
                   successful_attempts := st.successful_attempts + 1,
                   retry_count := st.retry_count + k }, r) := by
  intro k
  induction k with
  | zero =>
      intro attempt fuel le st r hfuel _ hexec hrs
      obtain ⟨f, rfl⟩ : ∃ f, fuel = f + 1 := ⟨fuel - 1, by omega⟩
      rw [Nat.add_zero] at hexec
      simp [retryLoop, hexec, hrs]
  | succ k ih =>
      intro attempt fuel le st r hfuel hfail hexec hrs
      obtain ⟨f, rfl⟩ : ∃ f, fuel = f + 1 := ⟨fuel - 1, by omega⟩
      have hf0 : ¬(f = 0) := by omega
      obtain ⟨hfails, hretry⟩ := hfail attempt le_rfl (by omega)
      have hstep : retryLoop cfg mkExc estr exec attempt (f + 1) le st
          = retryLoop cfg mkExc estr exec (attempt + 1) f
              (some (outcomeErr mkExc (exec attempt)))
              { st with total_attempts := st.total_attempts + 1,
                        retry_count := st.retry_count + 1 } := by
        cases hexec0 : exec attempt with
        | ok r0 =>
            rw [hexec0] at hfails hretry
            simp only [outcomeErr] at hretry
            have hrs0 : r0.success = false := by simpa [outcomeFails] using hfails
            simp [retryLoop, hexec0, hrs0, hretry, hf0, outcomeErr]
        | raise e =>
            rw [hexec0] at hfails hretry
            simp only [outcomeErr] at hretry
            simp [retryLoop, hexec0, hretry, hf0, outcomeErr]
      rw [hstep,
        ih (attempt + 1) f _ _ r (by omega)
          (fun i hi1 hi2 => hfail i (by omega) (by omega))
          (by rw [show attempt + 1 + k = attempt + (k + 1) by omega, hexec]) hrs]
      obtain ⟨t, s, fa, rc⟩ := st
      simp only [Prod.mk.injEq, RetryStats.mk.injEq, eq_self_iff_true,
        and_true, true_and]
      omega

/-- C4: (a) with `max_attempts = 3`, a wrapped executor that fails
retryably on its first two invocations (raising, or returning
`success=False`) and returns a success Result on the third causes
`execute_with_retry` to perform exactly 3 invocations (the total-attempts
counter advances by 3) and to return that success Result; (b) an executor
whose every invocation fails retryably causes exactly `max_attempts`
invocations and a returned failure Result — `exhaustedResult`, whose
message states that `max_attempts` attempts were exhausted
(`"Action failed after N attempts"`). -/
theorem C4_retry_invocation_counts :
    (∀ (ε : Type) (cfg : RetryConfig ε) (mkExc : String → ε)
       (estr : ε → String) (exec : ℕ → ExecOutcome ε) (st : RetryStats)
       (r : ActionResult),
       cfg.max_attempts = 3 →
       (∀ i, i < 2 → outcomeFails (exec i) = true
          ∧ cfg.should_retry (outcomeErr mkExc (exec i)) = true) →
       exec 2 = .ok r → r.success = true →
       execute_with_retry cfg mkExc estr exec st
         = ({ st with total_attempts := st.total_attempts + 3,
                      successful_attempts := st.successful_attempts + 1,
                      retry_count := st.retry_count + 2 }, r))
    ∧ (∀ (ε : Type) (cfg : RetryConfig ε) (mkExc : String → ε)
         (estr : ε → String) (exec : ℕ → ExecOutcome ε) (st : RetryStats),
       1 ≤ cfg.max_attempts →
       (∀ i, i < cfg.max_attempts → outcomeFails (exec i) = true
          ∧ cfg.should_retry (outcomeErr mkExc (exec i)) = true) →
       execute_with_retry cfg mkExc estr exec st
         = ({ st with
              total_attempts := st.total_attempts + cfg.max_attempts,
              failed_attempts := st.failed_attempts + 1,
              retry_count := st.retry_count + (cfg.max_attempts - 1) },
            exhaustedResult estr cfg.max_attempts
              (some (outcomeErr mkExc (exec (cfg.max_attempts - 1)))))) := by
  constructor
  · intro ε cfg mkExc estr exec st r hmax hfail hexec hrs
    rw [execute_with_retry, hmax]
    exact retryLoop_failsThenOk cfg mkExc estr exec 2 0 3 none st r
      (by omega) (fun i hi1 hi2 => hfail i (by omega)) hexec hrs
  · intro ε cfg mkExc estr exec st hmax hfail
    rw [execute_with_retry]
    have h := retryLoop_allFail cfg mkExc estr exec cfg.max_attempts 0 none st
      hmax (fun i hi1 hi2 => hfail i (by omega))
    simpa using h

/-- Witness for C4: with the 3-attempt unit configuration, a
fail-twice-then-succeed executor returns the success Result with counters
(3 attempts, 1 success, 0 failures, 2 retries); an always-raising executor
returns the exhausted failure with counters (3, 0, 1, 2). -/
theorem C4_witness :
    execute_with_retry unitRetryConfig (fun _ => ()) (fun _ => "err")
        failTwiceExec initStats
      = (⟨3, 1, 0, 2⟩, { success := true })
    ∧ execute_with_retry unitRetryConfig (fun _ => ()) (fun _ => "err")
        alwaysFailExec initStats
      = (⟨3, 0, 1, 2⟩, exhaustedResult (fun _ => "err") 3 (some ())) := by
  constructor
  · exact C4_retry_invocation_counts.1 Unit unitRetryConfig (fun _ => ())
      (fun _ => "err") failTwiceExec initStats { success := true }
      rfl (fun i hi => ⟨by simp [failTwiceExec, outcomeFails, hi], rfl⟩)
      rfl rfl
  · exact C4_retry_invocation_counts.2 Unit unitRetryConfig (fun _ => ())
      (fun _ => "err") alwaysFailExec initStats (by decide)
      (fun i _ => ⟨rfl, rfl⟩)

/-- C6: the failure-classification precedence of
`RetryConfig.should_retry` — an exception matching any listed non-retryable
class yields `False` regardless of the retryable list; otherwise the answer
is exactly whether some listed retryable class matches; and under the
default configuration (`retryable=[Exception]`, i.e. a class matching every
exception, and no non-retryable classes) every exception is retryable. -/
theorem C6_should_retry_classification :
    ∀ (ε : Type) (cfg : RetryConfig ε) (e : ε),
    (cfg.non_retryable_exceptions.any (fun cls => cls e) = true →
       cfg.should_retry e = false)
    ∧ (cfg.non_retryable_exceptions.any (fun cls => cls e) = false →
       cfg.should_retry e = cfg.retryable_exceptions.any (fun cls => cls e))
    ∧ (∀ e' : ε, ({} : RetryConfig ε).should_retry e' = true) := by
  intro ε cfg e
  refine ⟨?_, ?_, ?_⟩
  · intro h
    simp [RetryConfig.should_retry, h]
  · intro h
    simp [RetryConfig.should_retry, h]
  · intro e'
    rfl

/-- Witness for C6: over `ℕ`-coded exceptions, a config listing code 0 as
non-retryable refuses to retry it even though the (default) retryable list
matches everything; and the all-default config retries exception 7. -/
theorem C6_witness :
    ({ non_retryable_exceptions := [fun n => n == 0] }
        : RetryConfig ℕ).should_retry 0 = false
    ∧ ({} : RetryConfig ℕ).should_retry 7 = true :=
  ⟨(C6_should_retry_classification ℕ
      { non_retryable_exceptions := [fun n => n == 0] } 0).1 rfl,
   (C6_should_retry_classification ℕ
      { non_retryable_exceptions := [fun n => n == 0] } 0).2.2 7⟩

/-- Every call of the attempt loop with fuel available makes some number
`k ≥ 1` of invocations, adding `k` to the total-attempts counter, `k - 1`
to the retry counter, and one to exactly one of the success/failure
counters. -/
theorem retryLoop_stats_delta {ε : Type} (cfg : RetryConfig ε)
    (mkExc : String → ε) (estr : ε → String) (exec : ℕ → ExecOutcome ε) :
    ∀ (fuel attempt : ℕ) (le : Option ε) (st : RetryStats), 1 ≤ fuel →
    ∃ k, 1 ≤ k ∧ k ≤ fuel
      ∧ (retryLoop cfg mkExc estr exec attempt fuel le st).1.total_attempts
          = st.total_attempts + k
      ∧ (retryLoop cfg mkExc estr exec attempt fuel le st).1.retry_count
          = st.retry_count + (k - 1)
      ∧ (((retryLoop cfg mkExc estr exec attempt fuel le st).1.successful_attempts
            = st.successful_attempts + 1
          ∧ (retryLoop cfg mkExc estr exec attempt fuel le st).1.failed_attempts
            = st.failed_attempts)
        ∨ ((retryLoop cfg mkExc estr exec attempt fuel le st).1.successful_attempts
            = st.successful_attempts
          ∧ (retryLoop cfg mkExc estr exec attempt fuel le st).1.failed_attempts
            = st.failed_attempts + 1)) := by
  intro fuel
  induction fuel with
  | zero => intro attempt le st h; omega
  | succ f ih =>
      intro attempt le st _
      cases hexec : exec attempt with
      | ok r =>
          cases hrs : r.success with
          | true =>
              have hr : retryLoop cfg mkExc estr exec attempt (f + 1) le st
                  = ({ st with
                        total_attempts := st.total_attempts + 1,
                        successful_attempts := st.successful_attempts + 1 },
                     r) := by
                simp [retryLoop, hexec, hrs]
              rw [hr]
              exact ⟨1, le_rfl, by omega, rfl, rfl, Or.inl ⟨rfl, rfl⟩⟩
          | false =>
              rcases Nat.eq_zero_or_pos f with hf | hf
              · subst hf
                have hr : retryLoop cfg mkExc estr exec attempt 1 le st
                    = ({ st with
                          total_attempts := st.total_attempts + 1,
                          failed_attempts := st.failed_attempts + 1 },
                       exhaustedResult estr cfg.max_attempts
                         (some (outcomeErr mkExc (.ok r)))) := by
                  simp [retryLoop, hexec, hrs, outcomeErr]
                rw [hr]
                exact ⟨1, le_rfl, le_rfl, rfl, rfl, Or.inr ⟨rfl, rfl⟩⟩
              · have hf0 : ¬(f = 0) := by omega
                cases hsr : cfg.should_retry (mkExc (pyStrOr r.error "Action failed")) with
                | false =>
                    have hr : retryLoop cfg mkExc estr exec attempt (f + 1) le st
                        = ({ st with
                              total_attempts := st.total_attempts + 1,
                              failed_attempts := st.failed_attempts + 1 },
                           exhaustedResult estr cfg.max_attempts
                             (some (outcomeErr mkExc (.ok r)))) := by
                      simp [retryLoop, hexec, hrs, hf0, outcomeErr, hsr]
                    rw [hr]
                    exact ⟨1, le_rfl, by omega, rfl, rfl, Or.inr ⟨rfl, rfl⟩⟩
                | true =>
                    have hr : retryLoop cfg mkExc estr exec attempt (f + 1) le st
                        = retryLoop cfg mkExc estr exec (attempt + 1) f
                            (some (outcomeErr mkExc (.ok r)))
                            { st with
                                total_attempts := st.total_attempts + 1,
                                retry_count := st.retry_count + 1 } := by
                      simp [retryLoop, hexec, hrs, hf0, outcomeErr, hsr]
                    obtain ⟨k, hk1, hk2, ht, hrc, hsf⟩ :=
                      ih (attempt + 1) (some (outcomeErr mkExc (.ok r)))
                        { st with
                            total_attempts := st.total_attempts + 1,
                            retry_count := st.retry_count + 1 } hf
                    rw [hr]
                    refine ⟨k + 1, by omega, by omega, ?_, ?_, ?_⟩
                    · rw [ht]; show st.total_attempts + 1 + k
                        = st.total_attempts + (k + 1); omega
                    · rw [hrc]; show st.retry_count + 1 + (k - 1)
                        = st.retry_count + (k + 1 - 1); omega
                    · exact hsf
      | raise e =>
          rcases Nat.eq_zero_or_pos f with hf | hf
          · subst hf
            have hr : retryLoop cfg mkExc estr exec attempt 1 le st
                = ({ st with
                      total_attempts := st.total_attempts + 1,
                      failed_attempts := st.failed_attempts + 1 },
                   exhaustedResult estr cfg.max_attempts (some e)) := by
              simp [retryLoop, hexec]
            rw [hr]
            exact ⟨1, le_rfl, le_rfl, rfl, rfl, Or.inr ⟨rfl, rfl⟩⟩
          · have hf0 : ¬(f = 0) := by omega
            cases hsr : cfg.should_retry e with
            | false =>
                have hr : retryLoop cfg mkExc estr exec attempt (f + 1) le st
                    = ({ st with
                          total_attempts := st.total_attempts + 1,
                          failed_attempts := st.failed_attempts + 1 },
                       exhaustedResult estr cfg.max_attempts (some e)) := by
                  simp [retryLoop, hexec, hf0, hsr]
                rw [hr]
                exact ⟨1, le_rfl, by omega, rfl, rfl, Or.inr ⟨rfl, rfl⟩⟩
            | true =>
                have hr : retryLoop cfg mkExc estr exec attempt (f + 1) le st
                    = retryLoop cfg mkExc estr exec (attempt + 1) f (some e)
                        { st with
                            total_attempts := st.total_attempts + 1,
                            retry_count := st.retry_count + 1 } := by
                  simp [retryLoop, hexec, hf0, hsr]
                obtain ⟨k, hk1, hk2, ht, hrc, hsf⟩ :=
                  ih (attempt + 1) (some e)
                    { st with
                        total_attempts := st.total_attempts + 1,
                        retry_count := st.retry_count + 1 } hf
                rw [hr]
                refine ⟨k + 1, by omega, by omega, ?_, ?_, ?_⟩
                · rw [ht]; show st.total_attempts + 1 + k
                    = st.total_attempts + (k + 1); omega
                · rw [hrc]; show st.retry_count + 1 + (k - 1)
                    = st.retry_count + (k + 1 - 1); omega
                · exact hsf

/-- C9: the `RetryExecutor` counter invariant
`total = successful + failed + retries` holds at construction, is preserved
by every `execute_with_retry` call (each call makes some `k ≥ 1`
invocations, adding `k` to total, `k - 1` to retries and one to exactly one
of successful/failed — assuming `max_attempts ≥ 1` and non-raising
callbacks, which are not modelled), is restored by `reset_stats`, and
forces `stats`' `success_rate` into `[0, 1]`. -/
theorem C9_stats_invariant :
    statsInv initStats
    ∧ (∀ (ε : Type) (cfg : RetryConfig ε) (mkExc : String → ε)
         (estr : ε → String) (exec : ℕ → ExecOutcome ε) (st : RetryStats),
        1 ≤ cfg.max_attempts →
        ∃ k, 1 ≤ k ∧ k ≤ cfg.max_attempts
          ∧ (execute_with_retry cfg mkExc estr exec st).1.total_attempts
              = st.total_attempts + k
          ∧ (execute_with_retry cfg mkExc estr exec st).1.retry_count
              = st.retry_count + (k - 1)
          ∧ (((execute_with_retry cfg mkExc estr exec st).1.successful_attempts
                = st.successful_attempts + 1
              ∧ (execute_with_retry cfg mkExc estr exec st).1.failed_attempts
                = st.failed_attempts)
            ∨ ((execute_with_retry cfg mkExc estr exec st).1.successful_attempts
                = st.successful_attempts
              ∧ (execute_with_retry cfg mkExc estr exec st).1.failed_attempts
                = st.failed_attempts + 1)))
    ∧ (∀ (ε : Type) (cfg : RetryConfig ε) (mkExc : String → ε)
         (estr : ε → String) (exec : ℕ → ExecOutcome ε) (st : RetryStats),
        1 ≤ cfg.max_attempts → statsInv st →
        statsInv (execute_with_retry cfg mkExc estr exec st).1)
    ∧ (∀ st, statsInv (reset_stats st))
    ∧ (∀ st, statsInv st → 0 ≤ successRate st ∧ successRate st ≤ 1) := by
  have hdelta : ∀ (ε : Type) (cfg : RetryConfig ε) (mkExc : String → ε)
      (estr : ε → String) (exec : ℕ → ExecOutcome ε) (st : RetryStats),
      1 ≤ cfg.max_attempts →
      ∃ k, 1 ≤ k ∧ k ≤ cfg.max_attempts
        ∧ (execute_with_retry cfg mkExc estr exec st).1.total_attempts
            = st.total_attempts + k
        ∧ (execute_with_retry cfg mkExc estr exec st).1.retry_count
            = st.retry_count + (k - 1)
        ∧ (((execute_with_retry cfg mkExc estr exec st).1.successful_attempts
              = st.successful_attempts + 1
            ∧ (execute_with_retry cfg mkExc estr exec st).1.failed_attempts
              = st.failed_attempts)
          ∨ ((execute_with_retry cfg mkExc estr exec st).1.successful_attempts
              = st.successful_attempts
            ∧ (execute_with_retry cfg mkExc estr exec st).1.failed_attempts
              = st.failed_attempts + 1)) := by
    intro ε cfg mkExc estr exec st hmax
    exact retryLoop_stats_delta cfg mkExc estr exec cfg.max_attempts 0 none st hmax
  refine ⟨rfl, hdelta, ?_, fun st => rfl, ?_⟩
  · intro ε cfg mkExc estr exec st hmax hinv
    obtain ⟨k, hk1, hk2, ht, hrc, hsf⟩ := hdelta ε cfg mkExc estr exec st hmax
    unfold statsInv at hinv ⊢
    rcases hsf with ⟨hs, hfa⟩ | ⟨hs, hfa⟩ <;> omega
  · intro st hinv
    unfold successRate
    split
    · rename_i hpos
      have hle : st.successful_attempts ≤ st.total_attempts := by
        unfold statsInv at hinv; omega
      constructor
      · positivity
      · rw [div_le_one (by exact_mod_cast hpos)]
        exact_mod_cast hle
    · exact ⟨le_rfl, by norm_num⟩

/-- Witness for C9: the invariant holds after an always-failing
3-attempt call on fresh counters. -/
theorem C9_witness :
    statsInv (execute_with_retry unitRetryConfig (fun _ => ())
      (fun _ => "err") alwaysFailExec initStats).1 :=
  C9_stats_invariant.2.2.1 Unit unitRetryConfig (fun _ => ())
    (fun _ => "err") alwaysFailExec initStats (by decide)
    C9_stats_invariant.1

end CCF
